import Mathlib

/-!
Verification development for the rcm tunnel-manager core.

The Go sources are embedded shallowly:

* `internal/parser` (Caddyfile service extractor): `ParseLines`, `ParseContent`,
  mirroring `Parse` / `ParseContent` from the parser package.  Lines are
  `List Char`; the three regular expressions of the package
  (`serviceCommentRe`, `domainBlockRe`, `reverseProxyRe`) are embedded as
  executable character-scanning functions with the leftmost-first submatch
  semantics of the Go regexp package, specialised to those patterns.
* `internal/ssh` (`GetClient` pool, `NewClient` dial address, `FileExists`,
  `GetServiceStatus`): pure state-passing models; remote effects appear as
  explicit parameters.
* `internal/tui/views/sync.go` and `restart.go`: the per-stage goroutine
  bodies and the fan-in collectors are modelled as pure functions of the
  remote-effect outcomes; the arrival order on the result channel is an
  explicit list argument.
-/

namespace RCM

/-! ## Character classes

`goWhitespace` enumerates exactly the code points accepted by the Go function
`unicode.IsSpace` (used by `strings.TrimSpace`); `reSpaceChars` enumerates the
RE2 Perl class `\s` = `[\t\n\f\r ]` used inside the parser regexes. -/

def goWhitespace : List Char :=
  ['\t', '\n', '\x0b', '\x0c', '\r', ' ', '\x85', '\xa0',
   '\u1680', '\u2000', '\u2001', '\u2002', '\u2003', '\u2004', '\u2005',
   '\u2006', '\u2007', '\u2008', '\u2009', '\u200a',
   '\u2028', '\u2029', '\u202f', '\u205f', '\u3000']

def uSpace (c : Char) : Bool := goWhitespace.contains c

def reSpace (c : Char) : Bool := ['\t', '\n', '\x0c', '\r', ' '].contains c

/-- Go regexp `\w` (ASCII word character). -/
def wordCharB (c : Char) : Bool := c.isAlphanum || c == '_'

/-- a character allowed anywhere in the captured service name: `[\w-]`. -/
def wordHyphenB (c : Char) : Bool := wordCharB c || c == '-'

/-- the character class of `domainBlockRe`: `[a-zA-Z0-9.,\s\-_]`. -/
def inC (c : Char) : Bool :=
  c.isAlphanum || c == '.' || c == ',' || reSpace c || c == '-' || c == '_'

def isDigitB (c : Char) : Bool := c.isDigit

/-- a character that may appear inside one domain token of the schematic
documents used below (no comma, no whitespace, no brace). -/
def domCharB (c : Char) : Bool :=
  c.isAlphanum || c == '.' || c == '-' || c == '_'

/-! ## strings.TrimSpace and strings.Split -/

/-- head exists and is not Unicode whitespace. -/
def headOk (l : List Char) : Bool :=
  match l with
  | [] => false
  | c :: _ => !uSpace c

/-- last element exists and is not Unicode whitespace. -/
def lastOk (l : List Char) : Bool := headOk l.reverse

/-- strings.TrimSpace. -/
def goTrim (l : List Char) : List Char :=
  ((l.dropWhile uSpace).reverse.dropWhile uSpace).reverse

/-- strings.Split with a one-character separator. -/
def splitChar (sep : Char) : List Char → List (List Char)
  | [] => [[]]
  | c :: cs =>
    if c = sep then [] :: splitChar sep cs
    else
      match splitChar sep cs with
      | [] => [[c]]
      | s :: ss => (c :: s) :: ss

/-! ## The parser (internal/parser) -/

/-- parser.Service. -/
structure Service where
  Name : List Char
  LocalAddr : List Char
  VPSPort : Int
  Domains : List (List Char)
deriving Repr, DecidableEq

/-- parseDomains: split on commas, trim, drop empties. -/
def parseDomains (s : List Char) : List (List Char) :=
  ((splitChar ',' s).map goTrim).filter (fun d => !d.isEmpty)

/-- the regex name alternative `(\w[\w-]*\w|\w)` matched against a whole
candidate segment. -/
def nameOk : List Char → Bool
  | [] => false
  | [c] => wordCharB c
  | c :: cs => wordCharB c && wordCharB (cs.getLastD c) && (c :: cs).all wordHyphenB

/-- serviceCommentRe = `^#\s*(\w[\w-]*\w|\w):\s*(.+)$` applied with
FindStringSubmatch.  Because `[\w-]` cannot contain a colon, the name capture
must extend exactly to the first colon after the leading whitespace; the
second capture is the remainder after that colon (the regex drops some of its
leading `\s`, but the caller applies strings.TrimSpace to it, so returning the
raw remainder is equivalent at the use site).  Returns (name, remainder). -/
def commentMatch (l : List Char) : Option (List Char × List Char) :=
  match l with
  | [] => none
  | c :: rest =>
    if c = '#' then
      let t := rest.dropWhile reSpace
      let seg := t.takeWhile (fun a => !(a == ':'))
      let rem := t.drop (seg.length + 1)
      if seg.length < t.length && nameOk seg && !rem.isEmpty then some (seg, rem)
      else none
    else none

/-- domainBlockRe = `^([a-zA-Z0-9.,\s\-_]+)\s*\{` with FindStringSubmatch.
Since `\s` is contained in the bracket class, the pattern matches exactly when
the maximal class-prefix is nonempty and is followed immediately by a brace,
and the greedy first capture is that maximal prefix. -/
def blockMatch (l : List Char) : Option (List Char) :=
  let m := l.takeWhile inC
  let rest := l.dropWhile inC
  if m.isEmpty then none
  else
    match rest with
    | '{' :: _ => some m
    | _ => none

/-- match a literal at the head of the input, returning the rest. -/
def dropLit : List Char → List Char → Option (List Char)
  | [], rest => some rest
  | _ :: _, [] => none
  | x :: xs, y :: ys => if y = x then dropLit xs ys else none

/-- reverseProxyRe matched at one start position:
`reverse_proxy\s+(?:https?://)?(?:localhost|127\.0\.0\.1):(\d+)`.
Returns the digit capture. -/
def rpMatchAt (l : List Char) : Option (List Char) :=
  match dropLit ("reverse_proxy".data) l with
  | none => none
  | some r1 =>
    match r1 with
    | [] => none
    | c :: _ =>
      if reSpace c then
        let r2 := r1.dropWhile reSpace
        let r3 :=
          match dropLit ("http://".data) r2 with
          | some x => x
          | none =>
            match dropLit ("https://".data) r2 with
            | some x => x
            | none => r2
        let host :=
          match dropLit ("localhost".data) r3 with
          | some x => some x
          | none => dropLit ("127.0.0.1".data) r3
        match host with
        | none => none
        | some r4 =>
          match r4 with
          | ':' :: r5 =>
            let ds := r5.takeWhile isDigitB
            if ds.isEmpty then none else some ds
          | _ => none
      else none

/-- reverseProxyRe searched leftmost over the whole line. -/
def rpMatch : List Char → Option (List Char)
  | [] => none
  | c :: cs =>
    match rpMatchAt (c :: cs) with
    | some ds => some ds
    | none => rpMatch cs

/-- value of a digit string. -/
def digitsToNat (ds : List Char) : Nat :=
  ds.foldl (fun n c => 10 * n + (c.toNat - 48)) 0

/-- strconv.Atoi on a nonempty all-digit capture, error discarded: the parsed
value, saturated at the largest int64 on range error (ParseInt returns the
maximum magnitude together with ErrRange, and Parse ignores the error). -/
def atoiClamp (ds : List Char) : Int :=
  min (digitsToNat ds : Int) (2 ^ 63 - 1)

/-- the mutable state of one Parse pass.  `recs` plays the role of both the
ordered `services` slice and the `serviceMap`: the Go code appends a fresh
record when the name is unseen, mutates the mapped record through a pointer
when the name is known, and finally rewrites every slice entry from the map,
which is observationally the ordered list with in-place updates kept here
(names in `recs` are pairwise distinct, so updating every entry with a
matching name updates exactly one). -/
structure ParseState where
  recs : List Service
  pending : Option (List Char × List Char)
  currentDomains : List (List Char)
  braceCount : Int
deriving Repr

/-- record completion when a reverse_proxy line fires. -/
def addRec (recs : List Service) (n a : List Char) (port : Int)
    (doms : List (List Char)) : List Service :=
  if recs.any (fun r => r.Name == n) then
    recs.map (fun r => if r.Name == n then { r with Domains := r.Domains ++ doms } else r)
  else
    recs ++ [⟨n, a, port, doms⟩]

/-- one iteration of the scanner loop of parser.Parse. -/
def stepLine (st : ParseState) (raw : List Char) : ParseState :=
  let line := goTrim raw
  if line.isEmpty then st
  else
    match commentMatch line with
    | some (n, a) => { st with pending := some (n, goTrim a) }
    | none =>
      match blockMatch line with
      | some g =>
        { st with currentDomains := parseDomains g, braceCount := st.braceCount + 1 }
      | none =>
        let bc := st.braceCount + (line.count '{' : Int) - (line.count '}' : Int)
        let st1 :=
          match st.pending with
          | some (n, a) =>
            if 0 < bc then
              match rpMatch line with
              | some ds =>
                { st with braceCount := bc,
                          recs := addRec st.recs n a (atoiClamp ds) st.currentDomains }
              | none => { st with braceCount := bc }
            else { st with braceCount := bc }
          | none => { st with braceCount := bc }
        if bc = 0 then { st1 with pending := none, currentDomains := [] } else st1

def initState : ParseState := ⟨[], none, [], 0⟩

/-- parser.Parse over an already-scanned list of lines. -/
def ParseLines (lines : List (List Char)) : List Service :=
  (lines.foldl stepLine initState).recs

/-- bufio.ScanLines drops one trailing carriage return from each token. -/
def dropCR (l : List Char) : List Char :=
  if l.getLast? = some '\r' then l.dropLast else l

/-- the final newline-terminated segment yields no token. -/
def dropFinalEmpty (ls : List (List Char)) : List (List Char) :=
  if ls.getLast? = some [] then ls.dropLast else ls

/-- UTF-8 byte length of a segment (Go slices are byte slices). -/
def utf8Len (l : List Char) : Nat := (l.map Char.utf8Size).sum

/-- bufio.Scanner fails with ErrTooLong when a newline-delimited segment
reaches MaxScanTokenSize = 65536 bytes: the buffer, grown to its maximum,
fills completely without containing the terminating newline. -/
def anyTooLong (segs : List (List Char)) : Bool :=
  segs.any (fun s => 65536 ≤ utf8Len s)

/-- parser.ParseContent: Parse over bufio.NewScanner(strings.NewReader content).
The only error path of Parse is scanner.Err(), which for an in-memory reader
fires exactly when some line reaches the 65536-byte token limit. -/
def ParseContent (content : String) : Except String (List Service) :=
  let segs := splitChar '\n' content.data
  if anyTooLong segs then Except.error "scan error: bufio.Scanner: token too long"
  else Except.ok (ParseLines ((dropFinalEmpty segs).map dropCR))

/-! ## Schematic document lines

The shapes of the four kinds of line that make up the annotated blocks the
parser claims quantify over. -/

/-- an annotation line `# name: addr`. -/
def commentLine (n a : List Char) : List Char :=
  "# ".data ++ n ++ ": ".data ++ a

/-- comma-space-joined domain list, as it appears in a block header. -/
def joinDoms : List (List Char) → List Char
  | [] => []
  | [d] => d
  | d :: ds => d ++ ", ".data ++ joinDoms ds

/-- a block header line `dom1, dom2 {`. -/
def headerLine (ds : List (List Char)) : List Char :=
  joinDoms ds ++ " \x7b".data

/-- an indented `reverse_proxy localhost:PORT` line. -/
def rpLine (p : List Char) : List Char :=
  "    reverse_proxy localhost:".data ++ p

/-- a closing-brace line. -/
def closeLine : List Char := "\x7d".data

/-- one well-formed domain token of a schematic document. -/
def domOk (d : List Char) : Bool := !d.isEmpty && d.all domCharB

/-! ## SSH client and pool (internal/ssh) -/

/-- dial-address computation of NewClient (client.go): the default SSH port is
appended exactly when the host string has no colon; otherwise the host string
is used verbatim. -/
def dialAddr (host : List Char) : List Char :=
  if host.contains ':' then host else host ++ (":22".data)

/-- FileExists (operations.go).  Its two remote effects are the creation of
the SFTP session and the Stat call; each parameter is the outcome of one. -/
def FileExists (sftpErr : Option String) (statErr : Option String) :
    Bool × Option String :=
  match sftpErr with
  | some e => (false, some ("create sftp client: " ++ e))
  | none =>
    match statErr with
    | some _ => (false, none)
    | none => (true, none)

def goTrimS (s : String) : String := String.mk (goTrim s.data)

/-- GetServiceStatus (operations.go): trim the output of
`systemctl is-active`, report not-active on a failed command, and compare the
trimmed output against the literal string. -/
def GetServiceStatus (runOut : String) (runErr : Option String) :
    Bool × String × Option String :=
  let output := goTrimS runOut
  match runErr with
  | some _ => (false, output, none)
  | none => (decide (output = "active"), output, none)

/-- the connection pool (pool.go).  Clients are identified by the order in
which they were dialed: every successful NewClient call allocates the next
fresh identity, so two results are the same *Client value exactly when they
carry the same number. -/
structure Pool where
  entries : List (String × Nat)
  nextId : Nat
deriving Repr, DecidableEq

def poolLookup (entries : List (String × Nat)) (key : String) : Option Nat :=
  match entries.find? (fun e => e.1 == key) with
  | some e => some e.2
  | none => none

def poolRemove (entries : List (String × Nat)) (key : String) :
    List (String × Nat) :=
  entries.filter (fun e => !(e.1 == key))

def poolSet (entries : List (String × Nat)) (key : String) (id : Nat) :
    List (String × Nat) :=
  poolRemove entries key ++ [(key, id)]

/-- GetClient (pool.go).  `alive c` says whether `c.Run "true"` succeeds for
the cached client `c`; `dialOk` says whether NewClient would succeed now.  A
cache hit that answers the liveness probe is returned as-is; a dead hit is
closed, removed and re-dialed; a miss dials.  The key path only feeds
NewClient and does not influence the pool logic. -/
def GetClient (alive : Nat → Bool) (dialOk : Bool) (host user keyPath : String)
    (p : Pool) : Except String Nat × Pool :=
  let key := user ++ "@" ++ host
  match poolLookup p.entries key with
  | some c =>
    if alive c then (Except.ok c, p)
    else
      let entries := poolRemove p.entries key
      if dialOk then
        (Except.ok p.nextId, ⟨poolSet entries key p.nextId, p.nextId + 1⟩)
      else (Except.error ("connect to " ++ host), ⟨entries, p.nextId⟩)
  | none =>
    if dialOk then
      (Except.ok p.nextId, ⟨poolSet p.entries key p.nextId, p.nextId + 1⟩)
    else (Except.error ("connect to " ++ host), p)

/-! ## Sync pipeline (views/sync.go) -/

def stepParsing : Nat := 0
def stepGenerating : Nat := 1
def stepUploading : Nat := 2
def stepRestarting : Nat := 3
def stepComplete : Nat := 4
def stepFailed : Nat := 5

inductive TaskStatus
  | taskPending | taskRunning | taskDone | taskFailed
deriving Repr, DecidableEq

structure SyncServiceRow where
  Name : List Char
  LocalAddr : List Char
  VPSPort : Int
  Domain : List Char
  IsLocal : Bool
  IsRemote : Bool
deriving Repr, DecidableEq

/-- the per-goroutine result record of the Uploading/Restarting stages. -/
structure TaskResult where
  name : String
  err : Option String
  friendly : String
deriving Repr, DecidableEq

structure UploadResultMsg where
  serverOK : Bool
  serverFailed : Bool
  clientOK : Bool
  clientFailed : Bool
  err : Option String
  friendly : String
deriving Repr, DecidableEq

structure RestartResultMsg where
  serverOK : Bool
  serverFailed : Bool
  clientOK : Bool
  clientFailed : Bool
  caddyOK : Bool
  caddyFailed : Bool
  err : Option String
  friendly : String
deriving Repr, DecidableEq

inductive SyncMsg
  | stepCompleteMsg (step : Nat) (services : List Service)
      (serviceRows : List SyncServiceRow) (serverTOML clientTOML : String)
  | syncErrMsg (stepName : String) (err : String) (friendly : String)
  | uploadResultMsg (m : UploadResultMsg)
  | restartResultMsg (m : RestartResultMsg)
deriving Repr, DecidableEq

/-- the state of SyncModel that the Update function manipulates (spinner,
window geometry and key handling are presentation and omitted).
`caddyConfigured` stands for `config.Server.CaddyComposeDir != ""`. -/
structure SyncModel where
  step : Nat
  err : Option String
  errFriendly : String
  dryRun : Bool
  caddyConfigured : Bool
  parseStatus : TaskStatus
  generateStatus : TaskStatus
  uploadServerStatus : TaskStatus
  uploadClientStatus : TaskStatus
  restartServerStatus : TaskStatus
  restartClientStatus : TaskStatus
  restartCaddyStatus : TaskStatus
  services : List Service
  serviceRows : List SyncServiceRow
  serverTOML : String
  clientTOML : String
deriving Repr, DecidableEq

/-- the message branch of SyncModel.Update (sync.go).  Slices produced by the
pipeline are nil exactly when they are empty, so the Go nil-checks appear as
emptiness checks. -/
def updateSync (m0 : SyncModel) (msg : SyncMsg) : SyncModel :=
  match msg with
  | .stepCompleteMsg step svcs rows sT cT =>
    let m1 := if !svcs.isEmpty then { m0 with services := svcs } else m0
    let m2 := if !rows.isEmpty then { m1 with serviceRows := rows } else m1
    let m3 := if sT ≠ "" then { m2 with serverTOML := sT } else m2
    let m4 := if cT ≠ "" then { m3 with clientTOML := cT } else m3
    let m5 :=
      if step = stepParsing then
        { m4 with parseStatus := .taskDone, generateStatus := .taskRunning }
      else if step = stepGenerating then { m4 with generateStatus := .taskDone }
      else if step = stepUploading then
        let mu := { m4 with uploadServerStatus := .taskDone,
                            uploadClientStatus := .taskDone,
                            restartServerStatus := .taskRunning,
                            restartClientStatus := .taskRunning }
        if mu.caddyConfigured then { mu with restartCaddyStatus := .taskRunning } else mu
      else if step = stepRestarting then
        let mr := { m4 with restartServerStatus := .taskDone,
                            restartClientStatus := .taskDone }
        if mr.caddyConfigured then { mr with restartCaddyStatus := .taskDone } else mr
      else m4
    let m6 := { m5 with step := step + 1 }
    if m6.dryRun && decide (stepGenerating < m6.step) then
      { m6 with step := stepComplete }
    else m6
  | .syncErrMsg stepName e friendly =>
    let m1 := { m0 with step := stepFailed, err := some e, errFriendly := friendly }
    if stepName = "Parse" then { m1 with parseStatus := .taskFailed }
    else if stepName = "Generate" then { m1 with generateStatus := .taskFailed }
    else m1
  | .uploadResultMsg u =>
    let m1 := { m0 with step := stepFailed, err := u.err, errFriendly := u.friendly }
    let m2 := if u.serverOK then { m1 with uploadServerStatus := .taskDone }
              else if u.serverFailed then { m1 with uploadServerStatus := .taskFailed }
              else m1
    if u.clientOK then { m2 with uploadClientStatus := .taskDone }
    else if u.clientFailed then { m2 with uploadClientStatus := .taskFailed }
    else m2
  | .restartResultMsg r =>
    let m1 := { m0 with step := stepFailed, err := r.err, errFriendly := r.friendly }
    let m2 := if r.serverOK then { m1 with restartServerStatus := .taskDone }
              else if r.serverFailed then { m1 with restartServerStatus := .taskFailed }
              else m1
    let m3 := if r.clientOK then { m2 with restartClientStatus := .taskDone }
              else if r.clientFailed then { m2 with restartClientStatus := .taskFailed }
              else m2
    if r.caddyOK then { m3 with restartCaddyStatus := .taskDone }
    else if r.caddyFailed then { m3 with restartCaddyStatus := .taskFailed }
    else m3

/-! ## The Parsing stage (runStep stepParsing) -/

/-- remote-effect outcomes of the two parsing goroutines:
`localResult` is parser.ParseFile on the local document, `remoteConfigured`
is `Server.Host != "" && Server.Caddyfile != ""`, `connectResult` is the
pooled ssh.GetClient for the server, `downloadResult` the Caddyfile
download. -/
structure ParsingEnv where
  localResult : Except String (List Service)
  remoteConfigured : Bool
  connectResult : Except String Unit
  downloadResult : Except String String
deriving Repr

/-- Go map insertion `m[svc.Name] = svc`: last write per name wins, first-seen
name order kept (the iteration order of a Go map is unspecified; the order
here is immaterial because the rows are sorted by name afterwards). -/
def insertLast (rs : List Service) (s : Service) : List Service :=
  if rs.any (fun r => r.Name == s.Name) then
    rs.map (fun r => if r.Name == s.Name then s else r)
  else rs ++ [s]

def dedupLast (l : List Service) : List Service := l.foldl insertLast []

/-- the names present in the remote services map: empty unless the remote
side is configured, the connect succeeds, the download succeeds; the
ParseContent error on the downloaded text is discarded (`services, _ := ...`),
leaving no services. -/
def remoteNames (env : ParsingEnv) : List (List Char) :=
  if env.remoteConfigured then
    match env.connectResult with
    | .error _ => []
    | .ok _ =>
      match env.downloadResult with
      | .error _ => []
      | .ok content =>
        match ParseContent content with
        | .ok l => l.map (fun s => s.Name)
        | .error _ => []
  else []

/-- Go string comparison `<=` on the underlying bytes (UTF-8 byte order and
scalar-value order agree). -/
def listCharLe : List Char → List Char → Bool
  | [], _ => true
  | _ :: _, [] => false
  | a :: as, b :: bs => if a < b then true else if b < a then false else listCharLe as bs

def sortByName (l : List Service) : List Service :=
  l.mergeSort (fun a b => listCharLe a.Name b.Name)

def mkRow (remote : List (List Char)) (svc : Service) : SyncServiceRow :=
  ⟨svc.Name, svc.LocalAddr, svc.VPSPort, svc.Domains.headD [], true,
   remote.contains svc.Name⟩

/-- the remote side failed somewhere: connecting, downloading, or parsing the
downloaded document. -/
def remoteFailed (env : ParsingEnv) : Bool :=
  env.remoteConfigured &&
    (match env.connectResult with
     | .error _ => true
     | .ok _ =>
       match env.downloadResult with
       | .error _ => true
       | .ok content =>
         match ParseContent content with
         | .error _ => true
         | .ok _ => false)

/-- runStep stepParsing: fail the stage on a local parse error, otherwise
build one row per local service, marked remote exactly when the name also
appears remotely.  The Go code iterates the local map in unspecified order
and then sorts the rows by name; both outgoing lists are canonicalised by
name here. -/
def runStepParsing (env : ParsingEnv) : SyncMsg :=
  match env.localResult with
  | .error e => .syncErrMsg "Parse" e "could not parse local Caddyfile"
  | .ok svcs =>
    let locals := sortByName (dedupLast svcs)
    let rows := locals.map (mkRow (remoteNames env))
    .stepCompleteMsg stepParsing locals rows "" ""

/-! ## The Uploading and Restarting collectors (runStep) -/

def keepFirst (a : Option TaskResult) (r : TaskResult) : Option TaskResult :=
  match a with
  | none => some r
  | some x => some x

structure UploadAgg where
  serverOK : Bool
  serverFailed : Bool
  clientOK : Bool
  clientFailed : Bool
  firstErr : Option TaskResult
deriving Repr, DecidableEq

/-- one iteration of the Uploading collection loop. -/
def uploadCollect1 (a : UploadAgg) (r : TaskResult) : UploadAgg :=
  if r.name = "server" then
    if r.err.isNone then { a with serverOK := true }
    else { a with serverFailed := true, firstErr := keepFirst a.firstErr r }
  else
    if r.err.isNone then { a with clientOK := true }
    else { a with clientFailed := true, firstErr := keepFirst a.firstErr r }

/-- the Uploading collection loop: exactly one iteration per launched
sub-task, over the results in channel-arrival order. -/
def uploadCollect (rs : List TaskResult) : UploadAgg :=
  rs.foldl uploadCollect1 ⟨false, false, false, false, none⟩

/-- what runStep stepUploading returns once the results have arrived in order
`rs`. -/
def uploadStageMsg (rs : List TaskResult) : SyncMsg :=
  let a := uploadCollect rs
  match a.firstErr with
  | some fe =>
    .uploadResultMsg ⟨a.serverOK, a.serverFailed, a.clientOK, a.clientFailed,
                      fe.err, fe.friendly⟩
  | none => .stepCompleteMsg stepUploading [] [] "" ""

structure RestartAgg where
  serverOK : Bool
  serverFailed : Bool
  clientOK : Bool
  clientFailed : Bool
  caddyOK : Bool
  caddyFailed : Bool
  firstErr : Option TaskResult
deriving Repr, DecidableEq

/-- one iteration of the Restarting collection loop. -/
def restartCollect1 (a : RestartAgg) (r : TaskResult) : RestartAgg :=
  if r.name = "server" then
    if r.err.isNone then { a with serverOK := true }
    else { a with serverFailed := true, firstErr := keepFirst a.firstErr r }
  else if r.name = "client" then
    if r.err.isNone then { a with clientOK := true }
    else { a with clientFailed := true, firstErr := keepFirst a.firstErr r }
  else if r.name = "caddy" then
    if r.err.isNone then { a with caddyOK := true }
    else { a with caddyFailed := true, firstErr := keepFirst a.firstErr r }
  else a

def restartCollect (rs : List TaskResult) : RestartAgg :=
  rs.foldl restartCollect1 ⟨false, false, false, false, false, false, none⟩

/-- what runStep stepRestarting returns once the results have arrived in
order `rs`. -/
def restartStageMsg (rs : List TaskResult) : SyncMsg :=
  let a := restartCollect rs
  match a.firstErr with
  | some fe =>
    .restartResultMsg ⟨a.serverOK, a.serverFailed, a.clientOK, a.clientFailed,
                       a.caddyOK, a.caddyFailed, fe.err, fe.friendly⟩
  | none => .stepCompleteMsg stepRestarting [] [] "" ""

/-! ## The Restarting sub-tasks (runStep stepRestarting, sync.go 719-835) -/

/-- remote-effect outcomes available to one restart sub-task: the pooled
connect, the restart command, and what an immediate post-restart status query
would report.  The sync-pipeline sub-task reads only the first two. -/
structure RestartTaskEnv where
  connectErr : Option String
  restartErr : Option String
  unitActive : Bool
  statusText : String
deriving Repr, DecidableEq

/-- the body of one restart goroutine of runStep stepRestarting: acquire the
pooled client, run the restart command, and send the result.  sync.go issues
no status query in this stage (compare doRestart below). -/
def syncRestartTask (taskName : String) (host : String) (env : RestartTaskEnv) :
    TaskResult :=
  match env.connectErr with
  | some e => ⟨taskName, some e, "could not connect (" ++ host ++ ")"⟩
  | none =>
    match env.restartErr with
    | some e => ⟨taskName, some e, "could not restart " ++ taskName⟩
    | none => ⟨taskName, none, ""⟩

/-- the sub-tasks the Restarting stage launches: rathole-server and
rathole-client always, the caddy compose group when configured
(taskCount = 2 or 3). -/
def syncRestartTasksLaunched (caddyConfigured : Bool)
    (serverHost clientHost : String) (eS eC eK : RestartTaskEnv) :
    List TaskResult :=
  [syncRestartTask "server" serverHost eS, syncRestartTask "client" clientHost eC]
    ++ (if caddyConfigured then [syncRestartTask "caddy" serverHost eK] else [])

/-! ## The interactive restart flow (views/restart.go, doRestart) -/

structure RestartFlags where
  server : Bool
  caddy : Bool
  client : Bool
deriving Repr, DecidableEq

/-- remote-effect outcomes for one doRestart invocation. -/
structure DoRestartEnv where
  serverConnectErr : Option String
  serverRestartErr : Option String
  serverActive : Bool
  serverStatusText : String
  caddyRestartErr : Option String
  caddyRunning : Bool
  caddyStatusText : String
  clientConnectErr : Option String
  clientRestartErr : Option String
  clientActive : Bool
  clientStatusText : String
deriving Repr, DecidableEq

structure RestartDoneMsg where
  err : Option String
  friendly : String
  serverRatholeDone : Bool
  serverCaddyDone : Bool
  clientRatholeDone : Bool
  failedTask : String
deriving Repr, DecidableEq

/-- the client section of doRestart (runs only when everything before it
succeeded). -/
def doRestartClient (f : RestartFlags) (env : DoRestartEnv)
    (d : RestartDoneMsg) : RestartDoneMsg :=
  if f.client then
    match env.clientConnectErr with
    | some e =>
      { d with err := some e, friendly := "could not connect to client",
               failedTask := "clientRathole" }
    | none =>
      match env.clientRestartErr with
      | some e =>
        { d with err := some e, friendly := "could not restart rathole-client",
                 failedTask := "clientRathole" }
      | none =>
        if !env.clientActive then
          { d with err := some ("service not running: " ++ env.clientStatusText),
                   friendly := "rathole-client failed to start",
                   failedTask := "clientRathole" }
        else { d with clientRatholeDone := true }
  else d

/-- the caddy part of the server section of doRestart, then the client
section. -/
def doRestartCaddyThenClient (f : RestartFlags) (env : DoRestartEnv)
    (d : RestartDoneMsg) : RestartDoneMsg :=
  if f.caddy then
    match env.caddyRestartErr with
    | some e =>
      { d with err := some e, friendly := "could not restart Caddy",
               failedTask := "serverCaddy" }
    | none =>
      if !env.caddyRunning then
        { d with err := some ("container not running: " ++ env.caddyStatusText),
                 friendly := "Caddy failed to start",
                 failedTask := "serverCaddy" }
      else doRestartClient f env { d with serverCaddyDone := true }
  else doRestartClient f env d

/-- doRestart (restart.go): sequential sections with early return on the
first failure; each restart is verified by an immediate status query, and a
restart whose command succeeded but whose unit is not active is reported as
the error `service not running: ...` / `container not running: ...`. -/
def doRestart (f : RestartFlags) (env : DoRestartEnv) : RestartDoneMsg :=
  let d0 : RestartDoneMsg := ⟨none, "", false, false, false, ""⟩
  if f.server || f.caddy then
    match env.serverConnectErr with
    | some e =>
      { d0 with err := some e, friendly := "could not connect to server",
                failedTask := if f.server then "serverRathole" else "serverCaddy" }
    | none =>
      if f.server then
        match env.serverRestartErr with
        | some e =>
          { d0 with err := some e, friendly := "could not restart rathole-server",
                    failedTask := "serverRathole" }
        | none =>
          if !env.serverActive then
            { d0 with err := some ("service not running: " ++ env.serverStatusText),
                      friendly := "rathole-server failed to start",
                      failedTask := "serverRathole" }
          else doRestartCaddyThenClient f env { d0 with serverRatholeDone := true }
      else doRestartCaddyThenClient f env d0
  else doRestartClient f env d0

/-! # Helper lemmas -/

theorem mem_of_containsChar {l : List Char} {c : Char} (h : l.contains c = true) :
    c ∈ l := by
  simpa using h

theorem all_of_uSpace {q : Char → Bool} (hall : goWhitespace.all q = true) {c : Char}
    (h : uSpace c = true) : q c = true :=
  List.all_eq_true.mp hall c (mem_of_containsChar h)

theorem all_of_reSpace {q : Char → Bool}
    (hall : (['\t', '\n', '\x0c', '\r', ' '] : List Char).all q = true) {c : Char}
    (h : reSpace c = true) : q c = true :=
  List.all_eq_true.mp hall c (mem_of_containsChar h)

theorem not_uSpace_of {q : Char → Bool} (hq : goWhitespace.all (fun c => !q c) = true)
    {c : Char} (h : q c = true) : uSpace c = false := by
  cases hu : uSpace c
  · rfl
  · have h2 := all_of_uSpace hq hu
    rw [Bool.not_eq_true'] at h2
    rw [h] at h2
    cases h2

theorem not_reSpace_of {q : Char → Bool}
    (hq : (['\t', '\n', '\x0c', '\r', ' '] : List Char).all (fun c => !q c) = true)
    {c : Char} (h : q c = true) : reSpace c = false := by
  cases hu : reSpace c
  · rfl
  · have h2 := all_of_reSpace hq hu
    rw [Bool.not_eq_true'] at h2
    rw [h] at h2
    cases h2

theorem ne_char_of {q : Char → Bool} {c d : Char} (h : q c = true) (hd : q d = false) :
    ¬ c = d := by
  intro e
  rw [e, hd] at h
  cases h

theorem takeWhile_append_all {p : Char → Bool} {xs : List Char} (ys : List Char)
    (h : ∀ a ∈ xs, p a = true) :
    (xs ++ ys).takeWhile p = xs ++ ys.takeWhile p := by
  induction xs with
  | nil => rfl
  | cons c cs ih =>
    simp only [List.cons_append, List.takeWhile_cons, h c (by simp)]
    rw [ih (fun a ha => h a (by simp [ha]))]
    simp

theorem dropWhile_append_all {p : Char → Bool} {xs : List Char} (ys : List Char)
    (h : ∀ a ∈ xs, p a = true) :
    (xs ++ ys).dropWhile p = ys.dropWhile p := by
  induction xs with
  | nil => rfl
  | cons c cs ih =>
    simp only [List.cons_append, List.dropWhile_cons, h c (by simp)]
    exact ih (fun a ha => h a (by simp [ha]))

theorem takeWhile_all {p : Char → Bool} {l : List Char} (h : ∀ a ∈ l, p a = true) :
    l.takeWhile p = l := by
  induction l with
  | nil => rfl
  | cons c cs ih =>
    simp only [List.takeWhile_cons, h c (by simp)]
    rw [ih (fun a ha => h a (by simp [ha]))]
    simp

theorem dropWhile_head_false {p : Char → Bool} {c : Char} (l : List Char)
    (h : p c = false) : (c :: l).dropWhile p = c :: l := by
  simp [List.dropWhile_cons, h]

theorem dropWhile_of_headOk {l : List Char} (h : headOk l = true) :
    l.dropWhile uSpace = l := by
  cases l with
  | nil => rfl
  | cons c cs =>
    simp only [headOk, Bool.not_eq_true'] at h
    simp [List.dropWhile_cons, h]

theorem goTrim_eq_self {l : List Char} (h1 : headOk l = true) (h2 : lastOk l = true) :
    goTrim l = l := by
  unfold goTrim
  unfold lastOk at h2
  rw [dropWhile_of_headOk h1, dropWhile_of_headOk h2, List.reverse_reverse]

theorem goTrim_cons_space {l : List Char} {c : Char} (h : uSpace c = true) :
    goTrim (c :: l) = goTrim l := by
  unfold goTrim
  simp [List.dropWhile_cons, h]

theorem dropWhile_append_ne_nil {p : Char → Bool} {l : List Char} (m : List Char)
    (h : l.dropWhile p ≠ []) :
    (l ++ m).dropWhile p = l.dropWhile p ++ m := by
  induction l with
  | nil => exact absurd rfl h
  | cons c cs ih =>
    by_cases hc : p c = true
    · simp only [List.cons_append, List.dropWhile_cons, hc, if_true]
      simp only [List.dropWhile_cons, hc, if_true] at h
      exact ih h
    · rw [Bool.not_eq_true] at hc
      simp [List.dropWhile_cons, hc]

theorem goTrim_append_space {l : List Char} {c : Char} (h : uSpace c = true) :
    goTrim (l ++ [c]) = goTrim l := by
  cases hd : l.dropWhile uSpace with
  | nil =>
    have hl : ∀ a ∈ l, uSpace a = true := List.dropWhile_eq_nil_iff.mp hd
    have hall : List.dropWhile uSpace (l ++ [c]) = [] := by
      apply List.dropWhile_eq_nil_iff.mpr
      intro a ha
      rcases List.mem_append.mp ha with ha | ha
      · exact hl a ha
      · rcases List.mem_singleton.mp ha with rfl
        exact h
    unfold goTrim
    rw [hall, hd]
  | cons c' rest =>
    unfold goTrim
    rw [dropWhile_append_ne_nil [c] (by rw [hd]; simp), hd]
    rw [List.reverse_append]
    simp only [List.reverse_cons, List.reverse_nil, List.nil_append, List.singleton_append]
    rw [List.dropWhile_cons, h]
    simp

theorem headOk_append {l : List Char} (m : List Char) (h : l ≠ []) :
    headOk (l ++ m) = headOk l := by
  cases l with
  | nil => exact absurd rfl h
  | cons c cs => rfl

theorem lastOk_append {l : List Char} (m : List Char) (h : m ≠ []) :
    lastOk (l ++ m) = lastOk m := by
  unfold lastOk
  rw [List.reverse_append]
  exact headOk_append l.reverse (by simpa using h)

theorem headOk_of_all {l : List Char} (hne : l ≠ [])
    (hall : ∀ c ∈ l, uSpace c = false) : headOk l = true := by
  cases l with
  | nil => exact absurd rfl hne
  | cons c cs =>
    simp only [headOk, Bool.not_eq_true']
    exact hall c (by simp)

theorem lastOk_of_all {l : List Char} (hne : l ≠ [])
    (hall : ∀ c ∈ l, uSpace c = false) : lastOk l = true := by
  unfold lastOk
  exact headOk_of_all (by simpa using hne) (fun c hc => hall c (List.mem_reverse.mp hc))

theorem splitChar_ne_nil (sep : Char) (l : List Char) : splitChar sep l ≠ [] := by
  cases l with
  | nil => simp [splitChar]
  | cons c cs =>
    simp only [splitChar]
    split
    · simp
    · split <;> simp

theorem splitChar_nosep {sep : Char} {l : List Char} (h : ∀ a ∈ l, ¬ a = sep) :
    splitChar sep l = [l] := by
  induction l with
  | nil => rfl
  | cons c cs ih =>
    simp only [splitChar]
    rw [if_neg (h c (by simp))]
    rw [ih (fun a ha => h a (by simp [ha]))]

theorem splitChar_append_sep {sep : Char} {xs : List Char} (rest : List Char)
    (h : ∀ a ∈ xs, ¬ a = sep) :
    splitChar sep (xs ++ sep :: rest) = xs :: splitChar sep rest := by
  induction xs with
  | nil => simp [splitChar]
  | cons c cs ih =>
    simp only [List.cons_append, splitChar]
    rw [if_neg (h c (by simp))]
    simp only [List.append_eq]
    rw [ih (fun a ha => h a (by simp [ha]))]

/-! # Claim C9: dial address of NewClient -/

/-- C9: when creating a new session, a host string without a colon gets the
default port 22 appended; a host string containing a colon is dialed
verbatim. -/
theorem NewClient_dial_addr (host : List Char) :
    (host.contains ':' = false → dialAddr host = host ++ (":22".data)) ∧
    (host.contains ':' = true → dialAddr host = host) := by
  constructor
  · intro h
    unfold dialAddr
    rw [h]
    rfl
  · intro h
    unfold dialAddr
    rw [h]
    rfl

theorem NewClient_dial_addr_witness :
    dialAddr ("example.com".data) = "example.com".data ++ (":22".data) :=
  (NewClient_dial_addr ("example.com".data)).1 (by decide)

/-! # Claim C10: GetServiceStatus -/

/-- C10: GetServiceStatus reports the unit active exactly when the command
succeeded and its whitespace-trimmed output is the literal string `active`;
any command failure yields false, and the error component is always nil. -/
theorem GetServiceStatus_active_iff (runOut : String) (runErr : Option String) :
    (GetServiceStatus runOut runErr).2.2 = none ∧
    ((GetServiceStatus runOut runErr).1 = true ↔
      (runErr = none ∧ goTrimS runOut = "active")) := by
  cases runErr with
  | none =>
    refine ⟨rfl, ?_⟩
    simp [GetServiceStatus]
  | some e =>
    refine ⟨rfl, ?_⟩
    constructor
    · intro h
      cases h
    · intro h
      cases h.1

/-! # Claim C7: FileExists

The claim says FileExists never returns a non-nil error.  The Stat-failure
path indeed returns `(false, nil)`, but the function has a second failure
point: when the SFTP session itself cannot be created, the error is wrapped
and propagated to the caller (operations.go line 72).  The claim is refuted
there and holds in the amended form below. -/

/-- C7 counterexample: with a failing SFTP-session creation, FileExists
returns a non-nil error, contradicting the claim that every failure is
reported as the value false with a nil error. -/
theorem FileExists_propagates_sftp_error_cex :
    (FileExists (some "connection lost") none).2 = some "create sftp client: connection lost" := by
  rfl

/-- C7 amended: once the SFTP session is created, FileExists never returns a
non-nil error and reports true exactly when Stat succeeds — a Stat failure is
reported as plain false; a failure to create the SFTP session, however, is
propagated as a non-nil error. -/
theorem FileExists_stat_failure_is_false (statErr : Option String) (e : String) :
    (FileExists none statErr).2 = none ∧
    (FileExists none statErr).1 = statErr.isNone ∧
    (FileExists (some e) statErr).2.isSome = true := by
  cases statErr with
  | none => exact ⟨rfl, rfl, rfl⟩
  | some s => exact ⟨rfl, rfl, rfl⟩

/-! # Claim C8: pool reuse -/

theorem poolLookup_poolSet (entries : List (String × Nat)) (key : String) (id : Nat) :
    poolLookup (poolSet entries key id) key = some id := by
  induction entries with
  | nil => simp [poolLookup, poolSet, poolRemove, List.find?]
  | cons e es ih =>
    by_cases he : e.1 = key
    · simpa [poolSet, poolRemove, he] using ih
    · have hbeq : (e.1 == key) = false := by
        simpa using he
      simp only [poolSet, poolRemove, List.filter_cons, hbeq, Bool.not_false, if_true]
      simp only [poolLookup, List.cons_append, List.find?]
      rw [hbeq]
      exact ih

/-- C8: a second GetClient with the same (user, host) identity, issued while
the cached connection still answers the liveness probe, returns the very same
client identity and leaves the pool untouched — in particular no new
connection is dialed (the fresh-identity counter does not move). -/
theorem GetClient_second_call_reuses (alive : Nat → Bool) (dialOk : Bool)
    (host user keyPath : String) (p p1 : Pool) (c : Nat)
    (h1 : GetClient alive dialOk host user keyPath p = (Except.ok c, p1))
    (h2 : alive c = true) :
    GetClient alive dialOk host user keyPath p1 = (Except.ok c, p1) := by
  have hkey : poolLookup p1.entries (user ++ "@" ++ host) = some c := by
    simp only [GetClient] at h1
    split at h1
    next c0 heq =>
      split at h1
      next halive =>
        rw [Prod.mk.injEq] at h1
        obtain ⟨hc, hp⟩ := h1
        injection hc with hc
        rw [← hp, heq, hc]
      next halive =>
        split at h1
        next hdial =>
          rw [Prod.mk.injEq] at h1
          obtain ⟨hc, hp⟩ := h1
          injection hc with hc
          rw [← hp, ← hc]
          exact poolLookup_poolSet _ _ _
        next hdial => simp at h1
    next heq =>
      split at h1
      next hdial =>
        rw [Prod.mk.injEq] at h1
        obtain ⟨hc, hp⟩ := h1
        injection hc with hc
        rw [← hp, ← hc]
        exact poolLookup_poolSet _ _ _
      next hdial => simp at h1
  simp only [GetClient]
  rw [hkey]
  simp [h2]

theorem GetClient_second_call_reuses_witness :
    GetClient (fun _ => true) true "h" "u" "k" ⟨[("u@h", 0)], 1⟩ =
      (Except.ok 0, (⟨[("u@h", 0)], 1⟩ : Pool)) :=
  GetClient_second_call_reuses (fun _ => true) true "h" "u" "k" ⟨[], 0⟩
    ⟨[("u@h", 0)], 1⟩ 0 rfl rfl

/-! ## Case equations for stepLine -/

theorem stepLine_empty (st : ParseState) (raw : List Char)
    (hE : (goTrim raw).isEmpty = true) : stepLine st raw = st := by
  simp [stepLine, hE]

theorem stepLine_commentMatch (st : ParseState) (raw n a : List Char)
    (hE : ¬ (goTrim raw).isEmpty = true)
    (hcm : commentMatch (goTrim raw) = some (n, a)) :
    stepLine st raw = { st with pending := some (n, goTrim a) } := by
  simp only [stepLine]
  rw [if_neg hE, hcm]

theorem stepLine_blockMatch (st : ParseState) (raw g : List Char)
    (hE : ¬ (goTrim raw).isEmpty = true)
    (hcm : commentMatch (goTrim raw) = none)
    (hbm : blockMatch (goTrim raw) = some g) :
    stepLine st raw =
      { st with currentDomains := parseDomains g, braceCount := st.braceCount + 1 } := by
  simp only [stepLine]
  rw [if_neg hE, hcm, hbm]

theorem stepLine_other (st : ParseState) (raw : List Char)
    (hE : ¬ (goTrim raw).isEmpty = true)
    (hcm : commentMatch (goTrim raw) = none)
    (hbm : blockMatch (goTrim raw) = none) :
    stepLine st raw =
      (let bc := st.braceCount + ((goTrim raw).count '{' : Int) -
        ((goTrim raw).count '}' : Int)
       let st1 :=
         match st.pending with
         | some (n, a) =>
           if 0 < bc then
             match rpMatch (goTrim raw) with
             | some ds =>
               { st with braceCount := bc,
                         recs := addRec st.recs n a (atoiClamp ds) st.currentDomains }
             | none => { st with braceCount := bc }
           else { st with braceCount := bc }
         | none => { st with braceCount := bc }
       if bc = 0 then { st1 with pending := none, currentDomains := [] } else st1) := by
  simp only [stepLine]
  rw [if_neg hE, hcm, hbm]

theorem stepLine_other_recs (st : ParseState) (raw : List Char)
    (hE : ¬ (goTrim raw).isEmpty = true)
    (hcm : commentMatch (goTrim raw) = none)
    (hbm : blockMatch (goTrim raw) = none)
    (hnot : ¬ (0 : Int) < st.braceCount + ((goTrim raw).count '{' : Int) -
      ((goTrim raw).count '}' : Int)) :
    (stepLine st raw).recs = st.recs := by
  rw [stepLine_other st raw hE hcm hbm]
  cases hp : st.pending with
  | none =>
    simp only [hp]
    split <;> rfl
  | some pr =>
    obtain ⟨n, a⟩ := pr
    simp only [hp]
    rw [if_neg hnot]
    split <;> rfl

theorem stepLine_other_braceCount (st : ParseState) (raw : List Char)
    (hE : ¬ (goTrim raw).isEmpty = true)
    (hcm : commentMatch (goTrim raw) = none)
    (hbm : blockMatch (goTrim raw) = none) :
    (stepLine st raw).braceCount = st.braceCount +
      ((goTrim raw).count '{' : Int) - ((goTrim raw).count '}' : Int) := by
  rw [stepLine_other st raw hE hcm hbm]
  cases hp : st.pending with
  | none =>
    simp only [hp]
    split <;> rfl
  | some pr =>
    obtain ⟨n, a⟩ := pr
    simp only [hp]
    repeat' split
    all_goals rfl

theorem stepLine_other_clears (st : ParseState) (raw : List Char)
    (hE : ¬ (goTrim raw).isEmpty = true)
    (hcm : commentMatch (goTrim raw) = none)
    (hbm : blockMatch (goTrim raw) = none)
    (hB : st.braceCount + ((goTrim raw).count '{' : Int) -
      ((goTrim raw).count '}' : Int) = 0) :
    (stepLine st raw).pending = none ∧ (stepLine st raw).currentDomains = [] := by
  rw [stepLine_other st raw hE hcm hbm]
  simp only []
  rw [if_pos hB]
  exact ⟨rfl, rfl⟩

/-! # Claim C5: stray reverse_proxy lines bind to nothing

In the scanner loop a record can only be produced at a positive value of the
brace counter, and whenever the counter comes back to zero the pending
annotation and the current domain set are wiped.  The first conjunct states
that a line processed at counter zero which does not itself open a brace (no
opening-brace character, hence in particular any stray `reverse_proxy` line)
leaves the record list untouched; the second that a line that returns the
counter to zero clears the pending annotation and domain set, so no later
`reverse_proxy` line can bind to an annotation from an earlier block. -/

/-- C5: at brace depth zero a brace-free line (e.g. a stray `reverse_proxy`
line after all blocks have closed) contributes no record, and a line that
brings the depth back to zero clears the pending annotation and the current
domain set. -/
theorem rp_outside_block_no_record (st : ParseState) (raw : List Char) :
    (st.braceCount = 0 → (goTrim raw).count '{' = 0 →
      (stepLine st raw).recs = st.recs) ∧
    (0 < st.braceCount → (stepLine st raw).braceCount = 0 →
      (stepLine st raw).pending = none ∧ (stepLine st raw).currentDomains = []) := by
  constructor
  · intro hbc hcount
    by_cases hE : (goTrim raw).isEmpty = true
    · rw [stepLine_empty st raw hE]
    · rcases hcm : commentMatch (goTrim raw) with _ | ⟨n, a⟩
      · rcases hbm : blockMatch (goTrim raw) with _ | g
        · exact stepLine_other_recs st raw hE hcm hbm (by rw [hbc, hcount]; push_cast; omega)
        · rw [stepLine_blockMatch st raw g hE hcm hbm]
      · rw [stepLine_commentMatch st raw n a hE hcm]
  · intro hpos hzero
    by_cases hE : (goTrim raw).isEmpty = true
    · rw [stepLine_empty st raw hE] at hzero
      exact absurd hzero (by omega)
    · rcases hcm : commentMatch (goTrim raw) with _ | ⟨n, a⟩
      · rcases hbm : blockMatch (goTrim raw) with _ | g
        · by_cases hB : st.braceCount + ((goTrim raw).count '{' : Int) -
            ((goTrim raw).count '}' : Int) = 0
          · exact stepLine_other_clears st raw hE hcm hbm hB
          · rw [stepLine_other_braceCount st raw hE hcm hbm] at hzero
            exact absurd hzero hB
        · rw [stepLine_blockMatch st raw g hE hcm hbm] at hzero
          simp only [] at hzero
          exact absurd hzero (by omega)
      · rw [stepLine_commentMatch st raw n a hE hcm] at hzero
        simp only [] at hzero
        exact absurd hzero (by omega)

theorem rp_outside_block_no_record_witness :
    (stepLine ⟨[], some ("plex".data, "1.2.3.4:5".data), [], 0⟩
        ("reverse_proxy localhost:9999".data)).recs = [] ∧
    ((stepLine ⟨[], some ("plex".data, "1.2.3.4:5".data), ["d".data], 1⟩
        ("\x7d".data)).pending = none ∧
      (stepLine ⟨[], some ("plex".data, "1.2.3.4:5".data), ["d".data], 1⟩
        ("\x7d".data)).currentDomains = []) :=
  ⟨(rp_outside_block_no_record ⟨[], some ("plex".data, "1.2.3.4:5".data), [], 0⟩
      ("reverse_proxy localhost:9999".data)).1 rfl (by decide),
   (rp_outside_block_no_record ⟨[], some ("plex".data, "1.2.3.4:5".data), ["d".data], 1⟩
      ("\x7d".data)).2 (by decide) (by decide)⟩

/-! # Claim C3: independent sub-task outcomes in the fan-out stages

The Uploading and Restarting stages collect exactly one result per launched
goroutine (the loop runs taskCount times), classify each arriving result by
its task name, and set each OK/Failed flag from that task's own error alone;
Update then marks every task done or failed from its own flag.  The theorem
quantifies over all error assignments and over every order in which the
results can arrive on the channel, so a failing task A never makes a
succeeding task B report failure, and B's result is never dropped. -/

/-- C3: in the Uploading stage (both arrival orders of the two results) and
in the Restarting stage (all six arrival orders of the three results), every
task's OK/Failed flags equal the success/failure of that task's own error
value, and when some task failed, Update marks each task done or failed
according to its own outcome and moves the pipeline to Failed. -/
theorem stage_results_independent (eS eC eK : Option String) (fS fC fK : String) :
    (∀ rs : List TaskResult,
      (rs = [⟨"server", eS, fS⟩, ⟨"client", eC, fC⟩] ∨
       rs = [⟨"client", eC, fC⟩, ⟨"server", eS, fS⟩]) →
      ((uploadCollect rs).serverOK = eS.isNone ∧
       (uploadCollect rs).serverFailed = eS.isSome ∧
       (uploadCollect rs).clientOK = eC.isNone ∧
       (uploadCollect rs).clientFailed = eC.isSome) ∧
      (∀ m : SyncModel, (eS.isSome || eC.isSome) = true →
        (updateSync m (uploadStageMsg rs)).uploadServerStatus =
          (if eS.isSome then TaskStatus.taskFailed else TaskStatus.taskDone) ∧
        (updateSync m (uploadStageMsg rs)).uploadClientStatus =
          (if eC.isSome then TaskStatus.taskFailed else TaskStatus.taskDone) ∧
        (updateSync m (uploadStageMsg rs)).step = stepFailed)) ∧
    (∀ rs : List TaskResult,
      (rs = [⟨"server", eS, fS⟩, ⟨"client", eC, fC⟩, ⟨"caddy", eK, fK⟩] ∨
       rs = [⟨"server", eS, fS⟩, ⟨"caddy", eK, fK⟩, ⟨"client", eC, fC⟩] ∨
       rs = [⟨"client", eC, fC⟩, ⟨"server", eS, fS⟩, ⟨"caddy", eK, fK⟩] ∨
       rs = [⟨"client", eC, fC⟩, ⟨"caddy", eK, fK⟩, ⟨"server", eS, fS⟩] ∨
       rs = [⟨"caddy", eK, fK⟩, ⟨"server", eS, fS⟩, ⟨"client", eC, fC⟩] ∨
       rs = [⟨"caddy", eK, fK⟩, ⟨"client", eC, fC⟩, ⟨"server", eS, fS⟩]) →
      ((restartCollect rs).serverOK = eS.isNone ∧
       (restartCollect rs).serverFailed = eS.isSome ∧
       (restartCollect rs).clientOK = eC.isNone ∧
       (restartCollect rs).clientFailed = eC.isSome ∧
       (restartCollect rs).caddyOK = eK.isNone ∧
       (restartCollect rs).caddyFailed = eK.isSome) ∧
      (∀ m : SyncModel, (eS.isSome || eC.isSome || eK.isSome) = true →
        (updateSync m (restartStageMsg rs)).restartServerStatus =
          (if eS.isSome then TaskStatus.taskFailed else TaskStatus.taskDone) ∧
        (updateSync m (restartStageMsg rs)).restartClientStatus =
          (if eC.isSome then TaskStatus.taskFailed else TaskStatus.taskDone) ∧
        (updateSync m (restartStageMsg rs)).restartCaddyStatus =
          (if eK.isSome then TaskStatus.taskFailed else TaskStatus.taskDone) ∧
        (updateSync m (restartStageMsg rs)).step = stepFailed)) := by
  have hcs : ¬ ("client" : String) = "server" := by decide
  have hks : ¬ ("caddy" : String) = "server" := by decide
  have hkc : ¬ ("caddy" : String) = "client" := by decide
  constructor
  · intro rs hrs
    rcases hrs with rfl | rfl <;>
      cases eS <;> cases eC <;>
        refine ⟨by simp [uploadCollect, uploadCollect1, keepFirst, hcs], fun m hOr => ?_⟩ <;>
        (simp at hOr <;>
          simp [uploadStageMsg, uploadCollect, uploadCollect1, keepFirst, hcs,
            updateSync, stepFailed])
  · intro rs hrs
    rcases hrs with rfl | rfl | rfl | rfl | rfl | rfl <;>
      cases eS <;> cases eC <;> cases eK <;>
        refine ⟨by simp [restartCollect, restartCollect1, keepFirst, hcs, hks, hkc],
          fun m hOr => ?_⟩ <;>
        (simp at hOr <;>
          simp [restartStageMsg, restartCollect, restartCollect1, keepFirst,
            hcs, hks, hkc, updateSync, stepFailed])

theorem stage_results_independent_witness :
    (uploadCollect [⟨"client", none, ""⟩, ⟨"server", some "boom", "f"⟩]).serverFailed = true ∧
    (uploadCollect [⟨"client", none, ""⟩, ⟨"server", some "boom", "f"⟩]).serverOK = false ∧
    (uploadCollect [⟨"client", none, ""⟩, ⟨"server", some "boom", "f"⟩]).clientOK = true ∧
    (uploadCollect [⟨"client", none, ""⟩, ⟨"server", some "boom", "f"⟩]).clientFailed = false ∧
    ((updateSync
        ⟨stepUploading, none, "", false, false, .taskDone, .taskDone, .taskRunning,
         .taskRunning, .taskPending, .taskPending, .taskPending, [], [], "", ""⟩
        (uploadStageMsg [⟨"client", none, ""⟩, ⟨"server", some "boom", "f"⟩])).uploadServerStatus =
      TaskStatus.taskFailed ∧
     (updateSync
        ⟨stepUploading, none, "", false, false, .taskDone, .taskDone, .taskRunning,
         .taskRunning, .taskPending, .taskPending, .taskPending, [], [], "", ""⟩
        (uploadStageMsg [⟨"client", none, ""⟩, ⟨"server", some "boom", "f"⟩])).uploadClientStatus =
      TaskStatus.taskDone ∧
     (updateSync
        ⟨stepUploading, none, "", false, false, .taskDone, .taskDone, .taskRunning,
         .taskRunning, .taskPending, .taskPending, .taskPending, [], [], "", ""⟩
        (uploadStageMsg [⟨"client", none, ""⟩, ⟨"server", some "boom", "f"⟩])).step =
      stepFailed) := by
  have h := (stage_results_independent (some "boom") none none "f" "" "").1
    [⟨"client", none, ""⟩, ⟨"server", some "boom", "f"⟩] (Or.inr rfl)
  have h2 := h.2
    ⟨stepUploading, none, "", false, false, .taskDone, .taskDone, .taskRunning,
     .taskRunning, .taskPending, .taskPending, .taskPending, [], [], "", ""⟩ rfl
  exact ⟨h.1.2.1, h.1.1, h.1.2.2.1, h.1.2.2.2, h2.1, h2.2.1, h2.2.2⟩

/-! # Claim C6: local parse failure is fatal, remote failure is not -/

theorem remoteNames_empty_of_failed (env : ParsingEnv)
    (h : remoteFailed env = true) : remoteNames env = [] := by
  unfold remoteFailed at h
  rw [Bool.and_eq_true] at h
  obtain ⟨hcfg, hrest⟩ := h
  rcases hcr : env.connectResult with e | u
  · simp [remoteNames, hcfg, hcr]
  · rcases hdl : env.downloadResult with e | content
    · simp [remoteNames, hcfg, hcr, hdl]
    · rcases hpc : ParseContent content with e | l
      · simp [remoteNames, hcfg, hcr, hdl, hpc]
      · simp [hcr, hdl, hpc] at hrest

/-- C6: in the Parsing stage, a failure to read or parse the local document
fails the whole stage (Update moves the pipeline to Failed and marks the
parse task failed), while a failure to connect to the remote host, download
the remote document, or parse the downloaded text still lets the stage
complete — the merged rows then simply report every service as absent
remotely. -/
theorem parsing_stage_local_fatal_remote_nonfatal (env : ParsingEnv) :
    (∀ e, env.localResult = Except.error e →
      runStepParsing env =
        SyncMsg.syncErrMsg "Parse" e "could not parse local Caddyfile" ∧
      ∀ m : SyncModel,
        (updateSync m (runStepParsing env)).step = stepFailed ∧
        (updateSync m (runStepParsing env)).parseStatus = TaskStatus.taskFailed) ∧
    (∀ svcs, env.localResult = Except.ok svcs →
      (runStepParsing env =
        SyncMsg.stepCompleteMsg stepParsing (sortByName (dedupLast svcs))
          ((sortByName (dedupLast svcs)).map (mkRow (remoteNames env))) "" "" ∧
       (remoteFailed env = true →
         ∀ r ∈ (sortByName (dedupLast svcs)).map (mkRow (remoteNames env)),
           r.IsRemote = false)) ∧
      (∀ m : SyncModel, m.dryRun = false →
        (updateSync m (runStepParsing env)).step = stepGenerating)) := by
  constructor
  · intro e he
    have h1 : runStepParsing env =
        SyncMsg.syncErrMsg "Parse" e "could not parse local Caddyfile" := by
      unfold runStepParsing
      rw [he]
    refine ⟨h1, fun m => ?_⟩
    rw [h1]
    exact ⟨rfl, by simp [updateSync]⟩
  · intro svcs hok
    have h1 : runStepParsing env =
        SyncMsg.stepCompleteMsg stepParsing (sortByName (dedupLast svcs))
          ((sortByName (dedupLast svcs)).map (mkRow (remoteNames env))) "" "" := by
      unfold runStepParsing
      rw [hok]
    constructor
    · refine ⟨h1, fun hrf r hr => ?_⟩
      rw [remoteNames_empty_of_failed env hrf] at hr
      obtain ⟨svc, _, rfl⟩ := List.mem_map.mp hr
      rfl
    · intro m hdry
      rw [h1]
      simp only [updateSync, apply_ite SyncModel.dryRun, apply_ite SyncModel.step,
        if_pos rfl]
      simp [hdry, stepParsing, stepGenerating, stepComplete]

theorem parsing_stage_witness :
    ((updateSync
        ⟨stepParsing, none, "", false, false, .taskRunning, .taskPending, .taskPending,
         .taskPending, .taskPending, .taskPending, .taskPending, [], [], "", ""⟩
        (runStepParsing ⟨Except.error "open caddyfile: no such file", false,
          Except.ok (), Except.ok ""⟩)).step = stepFailed ∧
     (updateSync
        ⟨stepParsing, none, "", false, false, .taskRunning, .taskPending, .taskPending,
         .taskPending, .taskPending, .taskPending, .taskPending, [], [], "", ""⟩
        (runStepParsing ⟨Except.error "open caddyfile: no such file", false,
          Except.ok (), Except.ok ""⟩)).parseStatus = TaskStatus.taskFailed) ∧
    (updateSync
        ⟨stepParsing, none, "", false, false, .taskRunning, .taskPending, .taskPending,
         .taskPending, .taskPending, .taskPending, .taskPending, [], [], "", ""⟩
        (runStepParsing ⟨Except.ok [⟨"plex".data, "1.2.3.4:5".data, 8001, []⟩], true,
          Except.error "dial tcp: timeout", Except.error "x"⟩)).step = stepGenerating :=
  ⟨(parsing_stage_local_fatal_remote_nonfatal
      ⟨Except.error "open caddyfile: no such file", false, Except.ok (), Except.ok ""⟩).1
      "open caddyfile: no such file" rfl |>.2
      ⟨stepParsing, none, "", false, false, .taskRunning, .taskPending, .taskPending,
       .taskPending, .taskPending, .taskPending, .taskPending, [], [], "", ""⟩,
   (parsing_stage_local_fatal_remote_nonfatal
      ⟨Except.ok [⟨"plex".data, "1.2.3.4:5".data, 8001, []⟩], true,
       Except.error "dial tcp: timeout", Except.error "x"⟩).2
      [⟨"plex".data, "1.2.3.4:5".data, 8001, []⟩] rfl |>.2
      ⟨stepParsing, none, "", false, false, .taskRunning, .taskPending, .taskPending,
       .taskPending, .taskPending, .taskPending, .taskPending, [], [], "", ""⟩ rfl⟩

/-! # Claim C1: restart verification

The claim asserts that the Restarting stage of the sync pipeline treats a
restart as successful only if a post-restart status query reports the unit
active.  The stage (sync.go, runStep stepRestarting) in fact sends a success
result as soon as the restart command returns, performing no status query at
all; the post-restart verification exists only in the interactive restart
flow (restart.go, doRestart). -/

/-- C1 counterexample: a sync-pipeline restart sub-task whose connect and
restart commands succeed reports success (a nil error) even though the unit
is inactive afterwards — the environment records that a status query would
report not-active, and the task result is nevertheless a success, where the
claim demands a VerificationError. -/
theorem syncRestart_no_verification_cex :
    (RestartTaskEnv.unitActive ⟨none, none, false, "inactive"⟩ = false) ∧
    (syncRestartTask "server" "vps" ⟨none, none, false, "inactive"⟩).err = none := by
  exact ⟨rfl, rfl⟩

/-- C1 amended: the post-restart verification lives in the interactive
restart flow.  In doRestart, a target whose restart command succeeds but
whose immediate status query reports not-active yields a failure result
(`service not running` / `container not running`), never a success, and the
target is not marked done. -/
theorem doRestart_verifies_restart (env : DoRestartEnv) :
    ((env.serverConnectErr = none → env.serverRestartErr = none →
      env.serverActive = false →
      (doRestart ⟨true, false, false⟩ env).err =
        some ("service not running: " ++ env.serverStatusText) ∧
      (doRestart ⟨true, false, false⟩ env).failedTask = "serverRathole" ∧
      (doRestart ⟨true, false, false⟩ env).serverRatholeDone = false)) ∧
    ((env.serverConnectErr = none → env.caddyRestartErr = none →
      env.caddyRunning = false →
      (doRestart ⟨false, true, false⟩ env).err =
        some ("container not running: " ++ env.caddyStatusText) ∧
      (doRestart ⟨false, true, false⟩ env).failedTask = "serverCaddy" ∧
      (doRestart ⟨false, true, false⟩ env).serverCaddyDone = false)) ∧
    ((env.clientConnectErr = none → env.clientRestartErr = none →
      env.clientActive = false →
      (doRestart ⟨false, false, true⟩ env).err =
        some ("service not running: " ++ env.clientStatusText) ∧
      (doRestart ⟨false, false, true⟩ env).failedTask = "clientRathole" ∧
      (doRestart ⟨false, false, true⟩ env).clientRatholeDone = false)) := by
  refine ⟨?_, ?_, ?_⟩
  · intro hc hr ha
    simp [doRestart, doRestartCaddyThenClient, doRestartClient, hc, hr, ha]
  · intro hc hr ha
    simp [doRestart, doRestartCaddyThenClient, doRestartClient, hc, hr, ha]
  · intro hc hr ha
    simp [doRestart, doRestartCaddyThenClient, doRestartClient, hc, hr, ha]

theorem doRestart_verifies_restart_witness :
    (doRestart ⟨true, false, false⟩
        ⟨none, none, false, "inactive", none, true, "running", none, none, true, "active"⟩).err =
      some ("service not running: " ++ "inactive") ∧
    (doRestart ⟨true, false, false⟩
        ⟨none, none, false, "inactive", none, true, "running", none, none, true, "active"⟩).failedTask =
      "serverRathole" ∧
    (doRestart ⟨true, false, false⟩
        ⟨none, none, false, "inactive", none, true, "running", none, none, true, "active"⟩).serverRatholeDone =
      false :=
  (doRestart_verifies_restart
    ⟨none, none, false, "inactive", none, true, "running", none, none, true, "active"⟩).1
    rfl rfl rfl

/-! # Claim C4: ParseContent and the scanner token limit

The grammar scan itself never raises an error: every line either matches one
of the patterns or is ignored.  The only error path of Parse is
`scanner.Err()`, and bufio.Scanner DOES fail on in-memory input: a
newline-delimited segment of 65536 bytes or more (MaxScanTokenSize) makes
Scan stop with ErrTooLong, so `ParseContent` returns an error for such
inputs, refuting the universally quantified claim. -/

theorem splitChar_replicate_a (n : Nat) :
    splitChar '\n' (List.replicate n 'a') = [List.replicate n 'a'] :=
  splitChar_nosep (fun a ha => by
    rw [List.eq_of_mem_replicate ha]
    decide)

theorem utf8Len_replicate_a (n : Nat) : utf8Len (List.replicate n 'a') = n := by
  induction n with
  | zero => rfl
  | succ k ih =>
    simp only [List.replicate_succ, utf8Len, List.map_cons, List.sum_cons] at ih ⊢
    rw [ih, show ('a'.utf8Size) = 1 from rfl]
    omega

/-- C4 counterexample: an input consisting of one 65536-byte line makes
ParseContent return a scan error, not a service list. -/
theorem ParseContent_token_limit_cex :
    ParseContent (String.mk (List.replicate 65536 'a')) =
      Except.error "scan error: bufio.Scanner: token too long" := by
  have hdata : (String.mk (List.replicate 65536 'a')).data =
      List.replicate 65536 'a' := rfl
  have hlong : anyTooLong [List.replicate 65536 'a'] = true := by
    unfold anyTooLong
    rw [List.any_cons, List.any_nil, Bool.or_false]
    apply decide_eq_true
    rw [utf8Len_replicate_a]
  simp only [ParseContent, hdata, splitChar_replicate_a]
  rw [hlong]
  rfl

/-- C4 amended: for every input text whose newline-delimited segments are
each shorter than 65536 bytes (the bufio.Scanner token limit), ParseContent
returns a service list and never an error; malformed lines are simply not
recognised as records.  Inputs containing a segment of 65536 bytes or more
instead produce a scan error (see the counterexample). -/
theorem ParseContent_ok_of_bounded_lines (content : String)
    (h : ∀ seg ∈ splitChar '\n' content.data, utf8Len seg < 65536) :
    ∃ l, ParseContent content = Except.ok l := by
  have ha : anyTooLong (splitChar '\n' content.data) = false := by
    unfold anyTooLong
    rw [List.any_eq_false]
    intro s hs
    simpa using Nat.not_le.mpr (h s hs)
  simp only [ParseContent]
  rw [ha]
  exact ⟨_, rfl⟩

theorem ParseContent_ok_of_bounded_lines_witness :
    ∃ l, ParseContent
      "# plex: 192.168.1.100:32400\nplex.example.com \x7b\n    reverse_proxy localhost:8001\n\x7d\n"
      = Except.ok l :=
  ParseContent_ok_of_bounded_lines _ (by decide)

/-! # Claim C2: blocks with the same service name are merged

Character-class facts used while stepping the schematic lines. -/

theorem domChar_not_uSpace {c : Char} (h : domCharB c = true) : uSpace c = false :=
  not_uSpace_of (by decide) h

theorem wordChar_not_reSpace {c : Char} (h : wordCharB c = true) : reSpace c = false :=
  not_reSpace_of (by decide) h

theorem digit_not_uSpace {c : Char} (h : isDigitB c = true) : uSpace c = false :=
  not_uSpace_of (by decide) h

theorem wordHyphen_not_colon {c : Char} (h : wordHyphenB c = true) : ¬ c = ':' :=
  ne_char_of h (by decide)

theorem domChar_not_comma {c : Char} (h : domCharB c = true) : ¬ c = ',' :=
  ne_char_of h (by decide)

theorem domChar_not_hash {c : Char} (h : domCharB c = true) : ¬ c = '#' :=
  ne_char_of h (by decide)

theorem domChar_inC {c : Char} (h : domCharB c = true) : inC c = true := by
  simp only [domCharB, Bool.or_eq_true] at h
  simp only [inC, Bool.or_eq_true]
  tauto

theorem digit_not_open_brace {c : Char} (h : isDigitB c = true) : ¬ c = '{' :=
  ne_char_of h (by decide)

theorem digit_not_close_brace {c : Char} (h : isDigitB c = true) : ¬ c = '}' :=
  ne_char_of h (by decide)

theorem count_eq_zero_of_all {c : Char} {l : List Char} (h : ∀ a ∈ l, ¬ a = c) :
    l.count c = 0 :=
  List.count_eq_zero.mpr (fun hc => h c hc rfl)

theorem headOk_ne_nil {l : List Char} (h : headOk l = true) : l ≠ [] := by
  cases l with
  | nil => cases h
  | cons c cs => simp

theorem nameOk_head {n : List Char} (h : nameOk n = true) :
    ∃ c t, n = c :: t ∧ wordCharB c = true := by
  cases n with
  | nil => cases h
  | cons c t =>
    refine ⟨c, t, rfl, ?_⟩
    cases t with
    | nil => simpa [nameOk] using h
    | cons d t2 =>
      simp only [nameOk, Bool.and_eq_true] at h
      exact h.1.1

theorem nameOk_all {n : List Char} (h : nameOk n = true) :
    ∀ c ∈ n, wordHyphenB c = true := by
  cases n with
  | nil => cases h
  | cons c t =>
    cases t with
    | nil =>
      intro x hx
      rcases List.mem_singleton.mp hx with rfl
      simp only [nameOk] at h
      simp [wordHyphenB, h]
    | cons d t2 =>
      simp only [nameOk, Bool.and_eq_true] at h
      exact fun x hx => List.all_eq_true.mp h.2 x hx

theorem domOk_trim {d : List Char} (h : domOk d = true) :
    goTrim d = d ∧ d ≠ [] := by
  rw [domOk, Bool.and_eq_true] at h
  obtain ⟨hne, hall⟩ := h
  have hne2 : d ≠ [] := by
    cases d with
    | nil => cases hne
    | cons c cs => simp
  have hsp : ∀ c ∈ d, uSpace c = false :=
    fun c hc => domChar_not_uSpace (List.all_eq_true.mp hall c hc)
  exact ⟨goTrim_eq_self (headOk_of_all hne2 hsp) (lastOk_of_all hne2 hsp), hne2⟩

/-! parseDomains recovers the joined domain list of a header line. -/

theorem parseDomains_cons_space {l : List Char} {c : Char} (hc : uSpace c = true)
    (hcc : ¬ c = ',') : parseDomains (c :: l) = parseDomains l := by
  rcases hsp : splitChar ',' l with _ | ⟨s, ss⟩
  · exact absurd hsp (splitChar_ne_nil ',' l)
  · unfold parseDomains
    simp only [splitChar]
    rw [if_neg hcc, hsp]
    simp [goTrim_cons_space hc]

theorem parseDomains_joinDoms (ds : List (List Char)) (hne : ds ≠ [])
    (h : ∀ d ∈ ds, domOk d = true) :
    parseDomains (joinDoms ds ++ [' ']) = ds := by
  induction ds with
  | nil => exact absurd rfl hne
  | cons d rest ih =>
    obtain ⟨htd, hdne⟩ := domOk_trim (h d (by simp))
    have hnocomma : ∀ a ∈ d, ¬ a = ',' := by
      intro a ha
      have := h d (by simp)
      rw [domOk, Bool.and_eq_true] at this
      exact domChar_not_comma (List.all_eq_true.mp this.2 a ha)
    cases rest with
    | nil =>
      have hsp : splitChar ',' (joinDoms [d] ++ [' ']) = [d ++ [' ']] := by
        rw [show joinDoms [d] = d from rfl]
        apply splitChar_nosep
        intro a ha
        rcases List.mem_append.mp ha with ha | ha
        · exact hnocomma a ha
        · rcases List.mem_singleton.mp ha with rfl
          decide
      unfold parseDomains
      rw [hsp]
      simp only [List.map_cons, List.map_nil]
      rw [goTrim_append_space (show uSpace ' ' = true from by decide), htd]
      simp [List.isEmpty_iff, hdne]
    | cons d2 rest2 =>
      have hshape : joinDoms (d :: d2 :: rest2) ++ [' '] =
          d ++ ',' :: (' ' :: (joinDoms (d2 :: rest2) ++ [' '])) := by
        simp [joinDoms]
      rw [hshape]
      rw [show parseDomains (d ++ ',' :: (' ' :: (joinDoms (d2 :: rest2) ++ [' ']))) =
          ((splitChar ',' (d ++ ',' :: (' ' :: (joinDoms (d2 :: rest2) ++ [' '])))).map
            goTrim).filter (fun x => !x.isEmpty) from rfl]
      rw [splitChar_append_sep _ hnocomma]
      simp only [List.map_cons, htd, List.filter_cons]
      rw [if_pos (by simpa [List.isEmpty_iff] using hdne)]
      have htail : ((splitChar ',' (' ' :: (joinDoms (d2 :: rest2) ++ [' ']))).map
          goTrim).filter (fun x => !x.isEmpty) =
          parseDomains (' ' :: (joinDoms (d2 :: rest2) ++ [' '])) := rfl
      rw [htail,
        parseDomains_cons_space (show uSpace ' ' = true from by decide) (by decide),
        ih (by simp) (fun x hx => h x (by simp [hx]))]

/-! stepping the four schematic lines -/

theorem commentMatch_commentLine (n a : List Char) (hn : nameOk n = true) :
    commentMatch (commentLine n a) = some (n, ' ' :: a) := by
  obtain ⟨c0, n', hns, hc0⟩ := nameOk_head hn
  have hsh : commentLine n a = '#' :: ' ' :: (n ++ ':' :: ' ' :: a) := by
    simp [commentLine]
  have hdw : (' ' :: (n ++ ':' :: ' ' :: a)).dropWhile reSpace =
      n ++ ':' :: ' ' :: a := by
    rw [List.dropWhile_cons]
    rw [if_pos (by decide)]
    rw [hns, List.cons_append, List.dropWhile_cons]
    rw [if_neg (by simp [wordChar_not_reSpace hc0])]
  have htw : (n ++ ':' :: ' ' :: a).takeWhile (fun x => !(x == ':')) = n := by
    rw [takeWhile_append_all _ (fun x hx => by
      rw [Bool.not_eq_true']
      exact beq_eq_false_iff_ne.mpr (wordHyphen_not_colon (nameOk_all hn x hx)))]
    simp
  have hdrop : (n ++ ':' :: ' ' :: a).drop (n.length + 1) = ' ' :: a := by
    rw [show (n ++ ':' :: ' ' :: a) = (n ++ [':']) ++ (' ' :: a) by simp]
    rw [show n.length + 1 = (n ++ [':']).length by simp]
    exact List.drop_left _ _
  have hlt : n.length < (n ++ ':' :: ' ' :: a).length := by simp
  rw [hsh]
  simp only [commentMatch]
  rw [hdw, htw, hdrop]
  simp [hn, hlt]

theorem stepLine_comment (st : ParseState) (n a : List Char) (hn : nameOk n = true)
    (ha1 : headOk a = true) (ha2 : lastOk a = true) :
    stepLine st (commentLine n a) = { st with pending := some (n, a) } := by
  have htr : goTrim (commentLine n a) = commentLine n a := by
    apply goTrim_eq_self
    · rw [show commentLine n a = '#' :: (' ' :: (n ++ ':' :: ' ' :: a)) from by
        simp [commentLine]]
      rfl
    · rw [show commentLine n a = ("# ".data ++ n ++ ": ".data) ++ a from by
        simp [commentLine]]
      rw [lastOk_append _ (headOk_ne_nil ha1)]
      exact ha2
  have hE : ¬ (goTrim (commentLine n a)).isEmpty = true := by
    rw [htr, show commentLine n a = '#' :: (' ' :: (n ++ ':' :: ' ' :: a)) from by
      simp [commentLine]]
    simp
  have hcm : commentMatch (goTrim (commentLine n a)) = some (n, ' ' :: a) := by
    rw [htr]
    exact commentMatch_commentLine n a hn
  rw [stepLine_commentMatch st _ n (' ' :: a) hE hcm]
  rw [goTrim_cons_space (by decide), goTrim_eq_self ha1 ha2]

theorem joinDoms_head (ds : List (List Char)) (hne : ds ≠ [])
    (h : ∀ d ∈ ds, domOk d = true) :
    ∃ c t, joinDoms ds = c :: t ∧ domCharB c = true := by
  cases ds with
  | nil => exact absurd rfl hne
  | cons d rest =>
    have hd := h d (by simp)
    rw [domOk, Bool.and_eq_true] at hd
    obtain ⟨hdne, hall⟩ := hd
    cases hc : d with
    | nil => rw [hc] at hdne; cases hdne
    | cons c t =>
      have hcd : domCharB c = true := by
        apply List.all_eq_true.mp hall
        rw [hc]
        simp
      cases rest with
      | nil => exact ⟨c, t, by simp [joinDoms, hc], hcd⟩
      | cons d2 rest2 =>
        exact ⟨c, t ++ ", ".data ++ joinDoms (d2 :: rest2), by simp [joinDoms, hc], hcd⟩

theorem joinDoms_all_inC (ds : List (List Char)) (h : ∀ d ∈ ds, domOk d = true) :
    ∀ c ∈ joinDoms ds, inC c = true := by
  induction ds with
  | nil => intro c hc; cases hc
  | cons d rest ih =>
    have hd := h d (by simp)
    rw [domOk, Bool.and_eq_true] at hd
    cases rest with
    | nil =>
      intro c hc
      exact domChar_inC (List.all_eq_true.mp hd.2 c hc)
    | cons d2 rest2 =>
      intro c hc
      rw [show joinDoms (d :: d2 :: rest2) = d ++ ", ".data ++ joinDoms (d2 :: rest2)
        from rfl] at hc
      rcases List.mem_append.mp hc with hc | hc
      · rcases List.mem_append.mp hc with hc | hc
        · exact domChar_inC (List.all_eq_true.mp hd.2 c hc)
        · rw [show (", ".data : List Char) = [',', ' '] from rfl] at hc
          simp only [List.mem_cons, List.mem_singleton, List.not_mem_nil, or_false] at hc
          rcases hc with rfl | rfl <;> decide
      · exact ih (fun x hx => h x (by simp [hx])) c hc

theorem stepLine_header (st : ParseState) (ds : List (List Char)) (hne : ds ≠ [])
    (h : ∀ d ∈ ds, domOk d = true) :
    stepLine st (headerLine ds) =
      { st with currentDomains := ds, braceCount := st.braceCount + 1 } := by
  obtain ⟨c0, t0, hjshape, hc0⟩ := joinDoms_head ds hne h
  have hjne : joinDoms ds ≠ [] := by rw [hjshape]; simp
  have hallm : ∀ c ∈ joinDoms ds ++ [' '], inC c = true := by
    intro c hc
    rcases List.mem_append.mp hc with hc | hc
    · exact joinDoms_all_inC ds h c hc
    · rcases List.mem_singleton.mp hc with rfl
      decide
  have hsplit : headerLine ds = (joinDoms ds ++ [' ']) ++ ('{' :: []) := by
    simp [headerLine]
  have htr : goTrim (headerLine ds) = headerLine ds := by
    apply goTrim_eq_self
    · rw [show headerLine ds = c0 :: (t0 ++ " \x7b".data) from by
        simp [headerLine, hjshape]]
      simp only [headOk, Bool.not_eq_true']
      exact domChar_not_uSpace hc0
    · rw [show headerLine ds = joinDoms ds ++ [' ', '{'] from by simp [headerLine]]
      rw [lastOk_append _ (by simp)]
      decide
  have hE : ¬ (goTrim (headerLine ds)).isEmpty = true := by
    rw [htr, show headerLine ds = c0 :: (t0 ++ " \x7b".data) from by
      simp [headerLine, hjshape]]
    simp
  have hcm : commentMatch (goTrim (headerLine ds)) = none := by
    rw [htr, show headerLine ds = c0 :: (t0 ++ " \x7b".data) from by
      simp [headerLine, hjshape]]
    simp only [commentMatch]
    rw [if_neg (domChar_not_hash hc0)]
  have hbm : blockMatch (goTrim (headerLine ds)) = some (joinDoms ds ++ [' ']) := by
    rw [htr, hsplit]
    simp only [blockMatch]
    rw [takeWhile_append_all _ hallm, dropWhile_append_all _ hallm]
    rw [show ('{' :: ([] : List Char)).takeWhile inC = [] from rfl]
    rw [show ('{' :: ([] : List Char)).dropWhile inC = '{' :: [] from rfl]
    rw [List.append_nil]
    rw [if_neg (by simp [List.isEmpty_iff])]
    rfl
  rw [stepLine_blockMatch st _ _ hE hcm hbm]
  rw [parseDomains_joinDoms ds hne h]

theorem stepLine_rp (st : ParseState) (n a p : List Char)
    (hp : p ≠ []) (hpd : ∀ c ∈ p, isDigitB c = true)
    (hpend : st.pending = some (n, a)) (hbc : st.braceCount = 1) :
    stepLine st (rpLine p) =
      { st with recs := addRec st.recs n a (atoiClamp p) st.currentDomains } := by
  have htr : goTrim (rpLine p) = "reverse_proxy localhost:".data ++ p := by
    rw [show rpLine p = ' ' :: ' ' :: ' ' :: ' ' ::
      ("reverse_proxy localhost:".data ++ p) from rfl]
    rw [goTrim_cons_space (by decide), goTrim_cons_space (by decide),
      goTrim_cons_space (by decide), goTrim_cons_space (by decide)]
    apply goTrim_eq_self
    · rfl
    · rw [lastOk_append _ hp]
      exact lastOk_of_all hp (fun c hc => digit_not_uSpace (hpd c hc))
  have hE : ¬ (goTrim (rpLine p)).isEmpty = true := by
    rw [htr, show "reverse_proxy localhost:".data ++ p =
      'r' :: ("everse_proxy localhost:".data ++ p) from rfl]
    simp
  have hcm : commentMatch (goTrim (rpLine p)) = none := by
    rw [htr, show "reverse_proxy localhost:".data ++ p =
      'r' :: ("everse_proxy localhost:".data ++ p) from rfl]
    simp only [commentMatch]
    rw [if_neg (by decide)]
  have hbm : blockMatch (goTrim (rpLine p)) = none := by
    rw [htr, show "reverse_proxy localhost:".data ++ p =
      "reverse_proxy localhost".data ++ (':' :: p) from rfl]
    simp only [blockMatch]
    rw [takeWhile_append_all _ (by decide), dropWhile_append_all _ (by decide)]
    rw [show (':' :: p).takeWhile inC = [] from by
      simp [List.takeWhile_cons, show inC ':' = false from rfl]]
    rw [dropWhile_head_false p (by rfl)]
    rw [List.append_nil]
    rw [if_neg (by simp [List.isEmpty_iff])]
    rfl
  have hc1 : (goTrim (rpLine p)).count '{' = 0 := by
    rw [htr, List.count_append]
    rw [count_eq_zero_of_all (fun c hc => digit_not_open_brace (hpd c hc))]
    rfl
  have hc2 : (goTrim (rpLine p)).count '}' = 0 := by
    rw [htr, List.count_append]
    rw [count_eq_zero_of_all (fun c hc => digit_not_close_brace (hpd c hc))]
    rfl
  have hrp : rpMatch (goTrim (rpLine p)) = some p := by
    rw [htr]
    have h0 : rpMatch ("reverse_proxy localhost:".data ++ p) =
        (match rpMatchAt ("reverse_proxy localhost:".data ++ p) with
         | some ds => some ds
         | none => rpMatch ("everse_proxy localhost:".data ++ p)) := rfl
    have hAt : rpMatchAt ("reverse_proxy localhost:".data ++ p) =
        (if (p.takeWhile isDigitB).isEmpty then none
         else some (p.takeWhile isDigitB)) := rfl
    rw [h0, hAt, takeWhile_all hpd]
    rw [if_neg (by simpa [List.isEmpty_iff] using hp)]
  rw [stepLine_other st _ hE hcm hbm]
  rw [hc1, hc2, hbc, hpend, hrp]
  norm_num

theorem stepLine_close (st : ParseState) (hbc : st.braceCount = 1) :
    stepLine st closeLine =
      { st with pending := none, currentDomains := [], braceCount := 0 } := by
  have hE : ¬ (goTrim closeLine).isEmpty = true := by decide
  have hcm : commentMatch (goTrim closeLine) = none := by decide
  have hbm : blockMatch (goTrim closeLine) = none := by decide
  rw [stepLine_other st closeLine hE hcm hbm]
  rw [show ((goTrim closeLine).count '{') = 0 from rfl,
    show ((goTrim closeLine).count '}') = 1 from rfl, hbc]
  norm_num
  cases hpend : st.pending with
  | none => simp [hpend]
  | some pr =>
    obtain ⟨nn, aa⟩ := pr
    simp [hpend]

/-- C2: a document made of two annotated blocks that carry the same service
name (each containing a matching reverse_proxy line) parses to exactly one
record with that name, whose domain list is the concatenation of the two
blocks domain lists in document order, and whose local address and port are
those of the first-seen block. -/
theorem Parse_merges_same_name_blocks (n a1 a2 p1 p2 : List Char)
    (ds1 ds2 : List (List Char))
    (hn : nameOk n = true)
    (ha1 : headOk a1 = true) (ha1l : lastOk a1 = true)
    (ha2 : headOk a2 = true) (ha2l : lastOk a2 = true)
    (hd1 : ds1 ≠ []) (hd1d : ∀ d ∈ ds1, domOk d = true)
    (hd2 : ds2 ≠ []) (hd2d : ∀ d ∈ ds2, domOk d = true)
    (hp1 : p1 ≠ []) (hp1d : ∀ c ∈ p1, isDigitB c = true)
    (hp2 : p2 ≠ []) (hp2d : ∀ c ∈ p2, isDigitB c = true) :
    ParseLines [commentLine n a1, headerLine ds1, rpLine p1, closeLine,
                commentLine n a2, headerLine ds2, rpLine p2, closeLine] =
      [⟨n, a1, atoiClamp p1, ds1 ++ ds2⟩] := by
  have s1 : stepLine initState (commentLine n a1) =
      (⟨[], some (n, a1), [], 0⟩ : ParseState) :=
    stepLine_comment initState n a1 hn ha1 ha1l
  have s2 : stepLine (⟨[], some (n, a1), [], 0⟩ : ParseState) (headerLine ds1) =
      ⟨[], some (n, a1), ds1, 1⟩ :=
    stepLine_header _ ds1 hd1 hd1d
  have s3 : stepLine (⟨[], some (n, a1), ds1, 1⟩ : ParseState) (rpLine p1) =
      ⟨[⟨n, a1, atoiClamp p1, ds1⟩], some (n, a1), ds1, 1⟩ :=
    stepLine_rp _ n a1 p1 hp1 hp1d rfl rfl
  have s4 : stepLine
      (⟨[⟨n, a1, atoiClamp p1, ds1⟩], some (n, a1), ds1, 1⟩ : ParseState) closeLine =
      ⟨[⟨n, a1, atoiClamp p1, ds1⟩], none, [], 0⟩ :=
    stepLine_close _ rfl
  have s5 : stepLine
      (⟨[⟨n, a1, atoiClamp p1, ds1⟩], none, [], 0⟩ : ParseState) (commentLine n a2) =
      ⟨[⟨n, a1, atoiClamp p1, ds1⟩], some (n, a2), [], 0⟩ :=
    stepLine_comment _ n a2 hn ha2 ha2l
  have s6 : stepLine
      (⟨[⟨n, a1, atoiClamp p1, ds1⟩], some (n, a2), [], 0⟩ : ParseState)
      (headerLine ds2) =
      ⟨[⟨n, a1, atoiClamp p1, ds1⟩], some (n, a2), ds2, 1⟩ :=
    stepLine_header _ ds2 hd2 hd2d
  have s7 : stepLine
      (⟨[⟨n, a1, atoiClamp p1, ds1⟩], some (n, a2), ds2, 1⟩ : ParseState)
      (rpLine p2) =
      ⟨addRec [⟨n, a1, atoiClamp p1, ds1⟩] n a2 (atoiClamp p2) ds2,
       some (n, a2), ds2, 1⟩ :=
    stepLine_rp _ n a2 p2 hp2 hp2d rfl rfl
  have haddeq : addRec [⟨n, a1, atoiClamp p1, ds1⟩] n a2 (atoiClamp p2) ds2 =
      [⟨n, a1, atoiClamp p1, ds1 ++ ds2⟩] := by
    simp [addRec]
  have s8 : stepLine
      (⟨[⟨n, a1, atoiClamp p1, ds1 ++ ds2⟩], some (n, a2), ds2, 1⟩ : ParseState)
      closeLine =
      ⟨[⟨n, a1, atoiClamp p1, ds1 ++ ds2⟩], none, [], 0⟩ :=
    stepLine_close _ rfl
  unfold ParseLines
  simp only [List.foldl_cons, List.foldl_nil]
  rw [s1, s2, s3, s4, s5, s6, s7, haddeq, s8]

theorem Parse_merges_same_name_blocks_witness :
    ParseLines [commentLine ("homeassistant".data) ("192.168.1.100:8123".data),
                headerLine [("ha.example.com".data)],
                rpLine ("8002".data), closeLine,
                commentLine ("homeassistant".data) ("192.168.1.100:8123".data),
                headerLine [("home.example.com".data)],
                rpLine ("8002".data), closeLine] =
      [⟨"homeassistant".data, "192.168.1.100:8123".data, 8002,
        ["ha.example.com".data, "home.example.com".data]⟩] := by
  rw [Parse_merges_same_name_blocks ("homeassistant".data) ("192.168.1.100:8123".data)
    ("192.168.1.100:8123".data) ("8002".data) ("8002".data)
    [("ha.example.com".data)] [("home.example.com".data)]
    (by decide) (by decide) (by decide) (by decide) (by decide)
    (by decide) (by decide) (by decide) (by decide)
    (by decide) (by decide) (by decide) (by decide)]
  decide

end RCM
